import Mathlib

/-!
Verification of the transcript-analysis service (app.py).

The development shallowly embeds the pure reply-processing pipeline of the
application: the JSON extraction helper extract_json_from_text, the heuristic
fallback_parse, the sentiment normalisation and summary selection performed in
analyze_transcript_with_groq after the model reply text has been obtained, the
CSV appending of append_to_csv, and the request-handling logic of the analyze
route. Python values that can flow through the pipeline (the results of
json.loads, the None sentinel, the fallback dictionary) are embedded as the
type JValue, with JValue.null standing for the Python None object. Machine
strings are Lean strings; the embedding covers ASCII text (the Python string
operations involved, strip, lower, capitalize, and the regular expressions, are
modelled on the ASCII character classes that the source relies on). Fallible
Python code that returns a value or raises is embedded with Except, the error
carrying the exception message.
-/

/-! ## Python character classes and string primitives -/

/-- Whitespace for Python str.strip and for the regex class backslash-s
(ASCII range): space, tab, newline, carriage return, vertical tab, form feed. -/
def isPySpace (c : Char) : Bool :=
  c = ' ' || c = '\t' || c = '\n' || c = '\r' || c = Char.ofNat 11 || c = Char.ofNat 12

/-- JSON inter-token whitespace as accepted by json.loads: space, tab,
newline, carriage return. -/
def isJsonWs (c : Char) : Bool :=
  c = ' ' || c = '\t' || c = '\n' || c = '\r'

def skipWs (cs : List Char) : List Char := cs.dropWhile isJsonWs

/-- Python str.strip on a character list: drop whitespace from both ends. -/
def pyStripList (cs : List Char) : List Char :=
  ((cs.dropWhile isPySpace).reverse.dropWhile isPySpace).reverse

/-- Python str.strip. -/
def pyStrip (s : String) : String := ⟨pyStripList s.data⟩

/-- Python str.lower (ASCII). -/
def pyLower (s : String) : String := ⟨s.data.map Char.toLower⟩

/-- Python str.capitalize (ASCII): first character uppercased, the rest
lowercased. -/
def pyCapitalize (s : String) : String :=
  match s.data with
  | [] => ""
  | c :: t => ⟨c.toUpper :: t.map Char.toLower⟩

/-! ## Embedded Python values

JValue is the type of Python objects that the pipeline can produce from
json.loads or from the fallback dictionary. JValue.null embeds the Python
None object, which json.loads returns for the input null; the code in app.py
cannot tell a parsed JSON null from the no-result sentinel, and the embedding
keeps that identification. A JSON number is kept as its exact decimal value
mantissa times ten to exp10, with isInt recording whether Python would produce
an int (no fraction and no exponent in the literal); float rounding is not
modelled, and no claim depends on it. -/

inductive JValue where
  | null
  | bool (b : Bool)
  | num (isInt : Bool) (mant : Int) (exp10 : Int)
  | nanV
  | infV (neg : Bool)
  | str (s : String)
  | arr (elems : List JValue)
  | obj (entries : List (String × JValue))

/-- Python type name of an embedded value, as it appears in exception
messages. -/
def pyTypeName : JValue → String
  | .null => "NoneType"
  | .bool _ => "bool"
  | .num true _ _ => "int"
  | .num false _ _ => "float"
  | .nanV => "float"
  | .infV _ => "float"
  | .str _ => "str"
  | .arr _ => "list"
  | .obj _ => "dict"

/-- The AttributeError message Python raises when strip is called on a value
that is not a string. -/
def noStripMsg (v : JValue) : String :=
  "'" ++ pyTypeName v ++ "' object has no attribute 'strip'"

/-- Python truthiness of an embedded value. -/
def truthy : JValue → Bool
  | .null => false
  | .bool b => b
  | .num _ m _ => m != 0
  | .nanV => true
  | .infV _ => true
  | .str s => s != ""
  | .arr l => !l.isEmpty
  | .obj l => !l.isEmpty

def JValue.isObj : JValue → Bool
  | .obj _ => true
  | _ => false

/-- Python dict lookup with default None: d.get(k). -/
def lookupKey : List (String × JValue) → String → JValue
  | [], _ => .null
  | (k', v) :: rest, k => if k' = k then v else lookupKey rest k

/-- d.get(k) on an embedded value known to be a dict; None elsewhere. -/
def getKey (v : JValue) (k : String) : JValue :=
  match v with
  | .obj es => lookupKey es k
  | _ => .null

/-- Key presence in an embedded dict. -/
def hasKey (v : JValue) (k : String) : Bool :=
  match v with
  | .obj es => es.any (fun e => e.1 = k)
  | _ => false

/-- Python dict insertion: a repeated key keeps its first position and takes
the later value, as json.loads does for duplicate object keys. -/
def insertKey : List (String × JValue) → String → JValue → List (String × JValue)
  | [], k, v => [(k, v)]
  | (k', v') :: rest, k, v =>
      if k' = k then (k', v) :: rest else (k', v') :: insertKey rest k v

/-! ## json.loads

The parser follows the grammar json.loads accepts by default: the RFC 8259
values plus the constants NaN, Infinity and -Infinity, strings with the eight
escapes and backslash-u sequences (surrogate pairs combined; a lone surrogate
is not a Lean scalar value and is embedded as the replacement character), no
unescaped control characters, and the strict number grammar. Recursion is
bounded by fuel; exhaustion plays the role of the RecursionError that deeply
nested input raises in Python, which the callers in app.py catch like any
other parse failure. -/

def hexVal (c : Char) : Option Nat :=
  if '0' ≤ c ∧ c ≤ '9' then some (c.toNat - '0'.toNat)
  else if 'a' ≤ c ∧ c ≤ 'f' then some (c.toNat - 'a'.toNat + 10)
  else if 'A' ≤ c ∧ c ≤ 'F' then some (c.toNat - 'A'.toNat + 10)
  else none

def hex4 (a b c d : Char) : Option Nat :=
  match hexVal a, hexVal b, hexVal c, hexVal d with
  | some x, some y, some z, some w => some (((x * 16 + y) * 16 + z) * 16 + w)
  | _, _, _, _ => none

/-- The single-character JSON string escapes. -/
def escChar (c : Char) : Option Char :=
  if c = '"' then some '"'
  else if c = '\\' then some '\\'
  else if c = '/' then some '/'
  else if c = 'b' then some (Char.ofNat 8)
  else if c = 'f' then some (Char.ofNat 12)
  else if c = 'n' then some '\n'
  else if c = 'r' then some '\r'
  else if c = 't' then some '\t'
  else none

/-- Stand-in for a lone surrogate code point, which a Lean Char cannot
carry. -/
def loneSurrogate : Char := Char.ofNat 0xFFFD

/-- Body of a JSON string after the opening quote: the decoded content and
the input after the closing quote. -/
def parseStrBodyF : Nat → List Char → Option (String × List Char)
  | 0, _ => none
  | fuel + 1, cs =>
    match cs with
    | [] => none
    | '"' :: rest => some ("", rest)
    | '\\' :: esc =>
      match esc with
      | 'u' :: h1 :: h2 :: h3 :: h4 :: rest2 =>
        (match hex4 h1 h2 h3 h4 with
         | none => none
         | some code =>
           if 0xD800 ≤ code ∧ code ≤ 0xDBFF then
             match rest2 with
             | '\\' :: 'u' :: g1 :: g2 :: g3 :: g4 :: rest3 =>
               (match hex4 g1 g2 g3 g4 with
                | some lo =>
                  if 0xDC00 ≤ lo ∧ lo ≤ 0xDFFF then
                    (parseStrBodyF fuel rest3).map
                      (fun p => (⟨Char.ofNat (0x10000 + (code - 0xD800) * 0x400 + (lo - 0xDC00)) :: p.1.data⟩, p.2))
                  else
                    (parseStrBodyF fuel rest2).map (fun p => (⟨loneSurrogate :: p.1.data⟩, p.2))
                | none =>
                  (parseStrBodyF fuel rest2).map (fun p => (⟨loneSurrogate :: p.1.data⟩, p.2)))
             | _ =>
               (parseStrBodyF fuel rest2).map (fun p => (⟨loneSurrogate :: p.1.data⟩, p.2))
           else if 0xDC00 ≤ code ∧ code ≤ 0xDFFF then
             (parseStrBodyF fuel rest2).map (fun p => (⟨loneSurrogate :: p.1.data⟩, p.2))
           else
             (parseStrBodyF fuel rest2).map (fun p => (⟨Char.ofNat code :: p.1.data⟩, p.2)))
      | e :: rest2 =>
        (match escChar e with
         | some c => (parseStrBodyF fuel rest2).map (fun p => (⟨c :: p.1.data⟩, p.2))
         | none => none)
      | [] => none
    | c :: rest =>
      if c.toNat < 0x20 then none
      else (parseStrBodyF fuel rest).map (fun p => (⟨c :: p.1.data⟩, p.2))

def digitsToNat (ds : List Char) : Nat :=
  ds.foldl (fun a c => a * 10 + (c.toNat - '0'.toNat)) 0

/-- The strict JSON number grammar at the head of the input: minus sign, 0 or
a nonzero-led digit run, optional fraction, optional exponent. The fraction
and exponent groups are all-or-nothing, as in the NUMBER_RE regex of the json
module. -/
def parseNumber (cs : List Char) : Option (JValue × List Char) :=
  let sign := match cs with
    | '-' :: r => (true, r)
    | _ => (false, cs)
  match sign.2 with
  | [] => none
  | c :: _ =>
    if ¬ c.isDigit then none
    else
      let cs1 := sign.2
      let intDigits := if c = '0' then ['0'] else cs1.takeWhile Char.isDigit
      let r1 := cs1.drop intDigits.length
      let fracPart : List Char × List Char :=
        match r1 with
        | '.' :: r =>
          let fs := r.takeWhile Char.isDigit
          if fs.isEmpty then ([], r1) else (fs, r.drop fs.length)
        | _ => ([], r1)
      let expPart : Int × Bool × List Char :=
        match fracPart.2 with
        | e :: r =>
          if e = 'e' ∨ e = 'E' then
            let se : Int × List Char :=
              match r with
              | '+' :: rr => (1, rr)
              | '-' :: rr => (-1, rr)
              | _ => (1, r)
            let es := se.2.takeWhile Char.isDigit
            if es.isEmpty then (0, false, fracPart.2)
            else (se.1 * (digitsToNat es : Int), true, se.2.drop es.length)
          else (0, false, fracPart.2)
        | [] => (0, false, fracPart.2)
      let mantNat := digitsToNat (intDigits ++ fracPart.1)
      let mant : Int := if sign.1 then -(mantNat : Int) else (mantNat : Int)
      let isInt := fracPart.1.isEmpty && !expPart.2.1
      some (.num isInt mant (expPart.1 - fracPart.1.length), expPart.2.2)

/-- Parsing mode: a value, the members of an object after its opening brace,
or the elements of an array after its opening bracket. -/
inductive PMode where
  | val
  | members (acc : List (String × JValue))
  | elems (acc : List JValue)

/-- The json.loads scanner. Fuel decreases on every nesting step and every
separator step; the top-level caller passes enough for any input it is given. -/
def parseF : Nat → PMode → List Char → Option (JValue × List Char)
  | 0, _, _ => none
  | fuel + 1, .val, cs =>
    match cs with
    | 'n' :: 'u' :: 'l' :: 'l' :: rest => some (.null, rest)
    | 't' :: 'r' :: 'u' :: 'e' :: rest => some (.bool true, rest)
    | 'f' :: 'a' :: 'l' :: 's' :: 'e' :: rest => some (.bool false, rest)
    | 'N' :: 'a' :: 'N' :: rest => some (.nanV, rest)
    | 'I' :: 'n' :: 'f' :: 'i' :: 'n' :: 'i' :: 't' :: 'y' :: rest => some (.infV false, rest)
    | '-' :: 'I' :: 'n' :: 'f' :: 'i' :: 'n' :: 'i' :: 't' :: 'y' :: rest => some (.infV true, rest)
    | '"' :: rest =>
      (match parseStrBodyF (rest.length + 1) rest with
       | some (s, r) => some (.str s, r)
       | none => none)
    | '{' :: rest =>
      (match skipWs rest with
       | '}' :: r2 => some (.obj [], r2)
       | r => parseF fuel (.members []) r)
    | '[' :: rest =>
      (match skipWs rest with
       | ']' :: r2 => some (.arr [], r2)
       | r => parseF fuel (.elems []) r)
    | _ => parseNumber cs
  | fuel + 1, .members acc, cs =>
    match cs with
    | '"' :: rest =>
      (match parseStrBodyF (rest.length + 1) rest with
       | some (k, r1) =>
         (match skipWs r1 with
          | ':' :: r3 =>
            (match parseF fuel .val (skipWs r3) with
             | some (v, r4) =>
               (match skipWs r4 with
                | ',' :: r6 => parseF fuel (.members (insertKey acc k v)) (skipWs r6)
                | '}' :: r6 => some (.obj (insertKey acc k v), r6)
                | _ => none)
             | none => none)
          | _ => none)
       | none => none)
    | _ => none
  | fuel + 1, .elems acc, cs =>
    match parseF fuel .val cs with
    | some (v, r1) =>
      (match skipWs r1 with
       | ',' :: r3 => parseF fuel (.elems (acc ++ [v])) (skipWs r3)
       | ']' :: r3 => some (.arr (acc ++ [v]), r3)
       | _ => none)
    | none => none

/-- json.loads: skip leading whitespace, parse one value, and require only
whitespace to remain; None is returned by the embedding as Option none for any
failure, matching the exception being caught at every call site in app.py. -/
def json_loads (s : String) : Option JValue :=
  let cs := skipWs s.data
  match parseF (2 * cs.length + 2) .val cs with
  | some (v, rest) => if (skipWs rest).isEmpty then some v else none
  | none => none

/-! ## extract_json_from_text (app.py lines 44-61)

The first stage is json.loads on the stripped text. The second stage is the
search for the regex (backslash-brace [backslash-s backslash-S]* backslash-brace):
with a greedy all-matching star, the leftmost match runs from the first opening
brace that has a closing brace after it to the last closing brace of the text,
and such a match exists exactly when the first opening brace of the text
precedes its last closing brace. The Python function returns the parsed object
or None; JValue.null embeds None, so a reply that is just the word null comes
back identical to the no-result case, exactly as in Python. -/

/-- The text matched by re.search of the brace-block regex: from the first
opening brace to the last closing brace, when the former precedes the
latter. -/
def braceSpan (s : String) : Option String :=
  match s.data.findIdx? (fun c => c == '{'), s.data.reverse.findIdx? (fun c => c == '}') with
  | some i, some k =>
    let j := s.data.length - 1 - k
    if i < j then some ⟨(s.data.drop i).take (j - i + 1)⟩ else none
  | _, _ => none

def extract_json_from_text (text : String) : JValue :=
  match json_loads (pyStrip text) with
  | some v => v
  | none =>
    match braceSpan text with
    | some sub =>
      match json_loads sub with
      | some v => v
      | none => .null
    | none => .null

/-! ## fallback_parse (app.py lines 63-91)

The two regex searches are embedded by their leftmost-match closed forms.

Summary regex: the word Summary (any case), one or more separator characters
(colon, hyphen or whitespace, a greedy run), then a lazy nonempty run of
non-newline characters terminated by a newline or the end of the input. At a
given occurrence the greedy separator run is tried longest first; the first
character after the full run is never a separator, hence never a newline, so
when the run does not reach the end of the input the captured group runs from
that character to the next newline or the end. When the separator run reaches
the end of the input, backtracking hands back separator characters one at a
time, and the group the regex captures is the single latest separator
character of the run (after its first character) that is not a newline; if
every one is a newline the occurrence fails and the search moves on.

Sentiment regex: the word Sentiment (any case), one or more separator
characters, then a nonempty word-character run. No separator character is a
word character, so backtracking into the separator run never helps: the
occurrence matches exactly when the character after the greedy separator run
is a word character, and the group is the word run from it. -/

def isSepChar (c : Char) : Bool := c = ':' || c = '-' || isPySpace c

/-- Word characters of the regex class backslash-w (ASCII). -/
def isWordChar (c : Char) : Bool := c.isAlphanum || c = '_'

def notNl (c : Char) : Bool := c != '\n'

/-- Case-insensitive match of a (lowercase) pattern at the head of the text. -/
def ciStarts : List Char → List Char → Bool
  | [], _ => true
  | _ :: _, [] => false
  | p :: ps, c :: cs => (c.toLower = p) && ciStarts ps cs

/-- Leftmost match of the Summary regex of fallback_parse: the captured free
text after the label, before stripping. -/
def sumSearch : List Char → Option String
  | [] => none
  | c :: rest =>
    if ciStarts "summary".data (c :: rest) then
      let after := (c :: rest).drop 7
      let sepN := (after.takeWhile isSepChar).length
      if sepN = 0 then sumSearch rest
      else
        match after.drop sepN with
        | d :: ds => some ⟨(d :: ds).takeWhile notNl⟩
        | [] =>
          match ((after.take sepN).drop 1).reverse.find? notNl with
          | some x => some ⟨[x]⟩
          | none => sumSearch rest
    else sumSearch rest

/-- Leftmost match of the Sentiment regex of fallback_parse: the captured
word after the label. -/
def sentSearch : List Char → Option String
  | [] => none
  | c :: rest =>
    if ciStarts "sentiment".data (c :: rest) then
      let after := (c :: rest).drop 9
      let sepN := (after.takeWhile isSepChar).length
      if sepN = 0 then sentSearch rest
      else
        match after.drop sepN with
        | d :: ds => if isWordChar d then some ⟨d :: ds.takeWhile isWordChar⟩ else sentSearch rest
        | [] => sentSearch rest
    else sentSearch rest

def isSentEnd (c : Char) : Bool := c = '.' || c = '!' || c = '?'

def firstIsSpace : List Char → Bool
  | [] => false
  | c :: _ => isPySpace c

/-- One step of the sentence split of fallback_parse: the text up to and
including the first sentence-ending punctuation that is followed by
whitespace, and, when such a boundary exists, the input after the whitespace
run. -/
def takeSentence : List Char → List Char × Option (List Char)
  | [] => ([], none)
  | c :: rest =>
    if isSentEnd c && firstIsSpace rest then ([c], some (rest.dropWhile isPySpace))
    else
      match takeSentence rest with
      | (p, r) => (c :: p, r)

/-- re.split on whitespace runs that follow sentence-ending punctuation, as
fallback_parse applies it to the stripped text. The fuel bound input length
plus one always suffices, since every boundary consumes input. -/
def splitSentencesF : Nat → List Char → List (List Char)
  | 0, cs => [cs]
  | fuel + 1, cs =>
    match takeSentence cs with
    | (p, none) => [p]
    | (p, some r) => p :: splitSentencesF fuel r

def splitSentences (cs : List Char) : List (List Char) := splitSentencesF (cs.length + 1) cs

/-- The join of str.join with a single-space separator. -/
def joinSpace : List (List Char) → List Char
  | [] => []
  | [p] => p
  | p :: rest => p ++ ' ' :: joinSpace rest

def negKeywords : List String := ["angry", "frustrat", "upset", "not happy", "rude", "bad"]
def posKeywords : List String := ["thank", "good", "great", "happy", "satisfied", "awesome"]

/-- Whether the needle appears at the head of the haystack. -/
def startsWithList : List Char → List Char → Bool
  | [], _ => true
  | _ :: _, [] => false
  | n :: ns, h :: hs => n = h && startsWithList ns hs

/-- Substring containment, the Python operator in on strings. -/
def containsSub (needle : List Char) : List Char → Bool
  | [] => needle.isEmpty
  | h :: hs => startsWithList needle (h :: hs) || containsSub needle hs

/-- The keyword scan of fallback_parse over the lowercased text. -/
def keywordSentiment (text : String) : String :=
  if negKeywords.any (fun k => containsSub k.data (pyLower text).data) then "Negative"
  else if posKeywords.any (fun k => containsSub k.data (pyLower text).data) then "Positive"
  else "Neutral"

/-- The summary variable after the regex block of fallback_parse: the
captured group stripped, or None. -/
def summaryReg (text : String) : Option String := (sumSearch text.data).map pyStrip

/-- The sentiment variable after the regex block of fallback_parse: the
captured word stripped and capitalized, or None. -/
def sentimentReg (text : String) : Option String :=
  (sentSearch text.data).map (fun g => pyCapitalize (pyStrip g))

/-- The summary slot fallback_parse returns: the regex capture when truthy,
else the first two sentences of the stripped text joined by a space and
stripped (the falsy regex value survives only if the sentence list were
empty, which re.split never produces). -/
def fallbackSummary (text : String) : Option String :=
  if (summaryReg text).getD "" = "" then
    let sentences := splitSentences (pyStripList text.data)
    if sentences.isEmpty then summaryReg text
    else some (pyStrip ⟨joinSpace (sentences.take 2)⟩)
  else summaryReg text

/-- The sentiment slot fallback_parse returns: the regex capture when truthy,
else the keyword scan. -/
def fallbackSentiment (text : String) : String :=
  if (sentimentReg text).getD "" = "" then keywordSentiment text
  else (sentimentReg text).getD ""

/-- fallback_parse: the summary slot (None when nothing was assigned, exactly
the cases where the Python variable stays None) and the sentiment string. -/
def fallback_parse (text : String) : Option String × String :=
  (fallbackSummary text, fallbackSentiment text)

/-- The sentiment fallback_parse yields, written by its two cases: the
capitalized stripped word after a Sentiment label when the regex matches,
else the keyword scan. The theorem on C5 shows fallback_parse agrees with
this. -/
def sentimentOf (text : String) : String :=
  match sentSearch text.data with
  | some g => pyCapitalize (pyStrip g)
  | none => keywordSentiment text

/-! ## The post-call processing of analyze_transcript_with_groq
(app.py lines 126-147)

The reply text has been obtained; parsed is the extracted value, or the
fallback dictionary when extraction produced None. The sentiment block runs
first and the summary block second, and either can raise AttributeError by
calling strip on a non-string truthy value; the enclosing try converts any
such exception into the error dictionary. Except embeds this: ok is the
AnalysisResult pair (summary, sentiment), error the AnalysisError message. -/

/-- The fallback dictionary as a Python dict value. -/
def fbObj (p : Option String × String) : JValue :=
  .obj [("summary", match p.1 with | some s => .str s | none => .null),
        ("sentiment", .str p.2)]

/-- parsed after lines 126-128: the extracted value, or the fallback
dictionary when extraction returned None. -/
def parsedValue (content : String) : JValue :=
  match extract_json_from_text content with
  | .null => fbObj (fallback_parse content)
  | v => v

/-- sent of line 131: the sentiment slot of parsed when parsed is a dict,
else None. -/
def sentRaw (content : String) : JValue :=
  if (parsedValue content).isObj then getKey (parsedValue content) "sentiment" else .null

/-- summary of line 143: the summary slot of parsed when parsed is a dict,
else parsed itself. -/
def summaryRaw (content : String) : JValue :=
  if (parsedValue content).isObj then getKey (parsedValue content) "summary" else parsedValue content

def negTokens : List String := ["negative", "neg", "frustrated", "angry"]
def posTokens : List String := ["positive", "pos", "satisfied", "happy"]

/-- Lines 133-139 on a string token: strip, capitalize, then compare the
lowercased value against the two synonym lists. -/
def normalizeStr (s0 : String) : String :=
  if pyLower (pyCapitalize (pyStrip s0)) ∈ negTokens then "Negative"
  else if pyLower (pyCapitalize (pyStrip s0)) ∈ posTokens then "Positive"
  else "Neutral"

/-- Lines 131-141: a falsy sent gives Neutral; a truthy string is normalised;
a truthy non-string raises AttributeError at sent.strip(). -/
def normalize_sentiment (sent : JValue) : Except String String :=
  if truthy sent then
    match sent with
    | .str s0 => .ok (normalizeStr s0)
    | v => .error (noStripMsg v)
  else .ok "Neutral"

/-- Lines 143-145: the summary value after the placeholder default, the
fixed placeholder when the chosen slot is falsy. -/
def summaryChosen (content : String) : JValue :=
  if truthy (summaryRaw content) then summaryRaw content
  else .str "No summary produced."

/-- Lines 126-147: everything analyze_transcript_with_groq does to the reply
text after the model call, producing the (summary, sentiment) result or the
caught exception message. The sentiment block runs before the summary block,
so its exception wins when both would raise. -/
def postProcess (content : String) : Except String (String × String) :=
  match normalize_sentiment (sentRaw content) with
  | .error e => .error e
  | .ok sentiment =>
    match summaryChosen content with
    | .str s => .ok (pyStrip s, sentiment)
    | v => .error (noStripMsg v)

/-! ## append_to_csv and the analyze route (app.py lines 152-199)

The CSV log is embedded as its list of rows; a missing file is the empty
list, and the first write prepends the header row. The outbound network call
is the one effect the embedding cannot perform, so the route handler takes
the gateway outcome as a parameter: ok embeds the result dictionary, err the
error dictionary (the branch `"error" in result` distinguishes them, since a
result dictionary has only the summary and sentiment keys). -/

def append_to_csv (rows : List (List String)) (transcript summary sentiment : String) :
    List (List String) :=
  (if rows.isEmpty then [["Transcript", "Summary", "Sentiment"]] else rows)
    ++ [[transcript, summary, sentiment]]

inductive GwResult where
  | ok (summary sentiment : String)
  | err (msg : String)

/-- The response bodies the analyze route can produce. -/
inductive Resp where
  | plainText (msg : String)
  | errJson (msg : String)
  | okJson (transcript summary sentiment : String)
  | okHtml (transcript summary sentiment : String)

/-- The analyze route: empty-after-strip transcripts are rejected with 400
before any downstream work; a gateway error dictionary yields 500 with the
message and no log write; otherwise the record is appended and the result
rendered as JSON or HTML according to how the request arrived. -/
def analyzeRoute (isJson : Bool) (transcript : String) (gw : GwResult)
    (log : List (List String)) : (Nat × Resp) × List (List String) :=
  if pyStrip transcript = "" then ((400, .plainText "Please provide a non-empty transcript."), log)
  else
    match gw with
    | .err e => ((500, .errJson e), log)
    | .ok summary sentiment =>
      let log2 := append_to_csv log transcript summary sentiment
      if isJson then ((200, .okJson transcript summary sentiment), log2)
      else ((200, .okHtml transcript summary sentiment), log2)

/-! ## Derived predicates used by the statements -/

/-- The closed sentiment set of the specification. -/
def sentimentValues : List String := ["Positive", "Neutral", "Negative"]

/-- The shape the specification ascribes to the extractor result: a mapping
or null. -/
def isNullOrObj (v : JValue) : Bool :=
  match v with
  | .null => true
  | .obj _ => true
  | _ => false

/-- A value on which calling strip cannot raise in the pipeline: a string, or
a falsy value (which the truthiness guards divert before strip). -/
def isStrOrFalsy (v : JValue) : Bool :=
  match v with
  | .str _ => true
  | v => !truthy v

def isOkResult : Except String (String × String) → Bool
  | .ok _ => true
  | .error _ => false

/-- Whether the brace span of the text, when present, fails to parse as
JSON. -/
def noSpanJson (s : String) : Bool :=
  match braceSpan s with
  | some sub => (json_loads sub).isNone
  | none => true

/-! ## Helper lemmas -/

lemma mk_ne_empty {l : List Char} (h : l ≠ []) : (⟨l⟩ : String) ≠ "" := by
  intro he
  apply h
  simpa using congrArg String.data he

lemma dropWhile_head_not {p : Char → Bool} :
    ∀ (l : List Char) (c : Char) (t : List Char), l.dropWhile p = c :: t → p c = false := by
  intro l
  induction l with
  | nil => intro c t h; simp [List.dropWhile] at h
  | cons a as ih =>
    intro c t h
    by_cases hp : p a
    · rw [List.dropWhile_cons, if_pos hp] at h
      exact ih c t h
    · rw [List.dropWhile_cons, if_neg hp] at h
      cases h
      exact Bool.eq_false_iff.mpr hp

lemma dropWhile_suffix_exists {p : Char → Bool} :
    ∀ l : List Char, ∃ u, l = u ++ l.dropWhile p := by
  intro l
  induction l with
  | nil => exact ⟨[], rfl⟩
  | cons a as ih =>
    by_cases hp : p a
    · obtain ⟨u, hu⟩ := ih
      exact ⟨a :: u, by rw [List.dropWhile_cons, if_pos hp]; exact congrArg (a :: ·) hu⟩
    · exact ⟨[], by rw [List.dropWhile_cons, if_neg hp, List.nil_append]⟩

lemma stripList_head {cs : List Char} {c : Char} {t : List Char}
    (h : pyStripList cs = c :: t) : isPySpace c = false := by
  unfold pyStripList at h
  obtain ⟨u, hu⟩ := dropWhile_suffix_exists (p := isPySpace) (cs.dropWhile isPySpace).reverse
  have h2 : (cs.dropWhile isPySpace).reverse.dropWhile isPySpace = (c :: t).reverse := by
    rw [← h, List.reverse_reverse]
  have h3 : cs.dropWhile isPySpace = c :: (t ++ u.reverse) := by
    have := congrArg List.reverse hu
    rw [List.reverse_reverse, h2, List.reverse_append, List.reverse_reverse] at this
    simpa using this
  exact dropWhile_head_not cs c (t ++ u.reverse) h3

lemma stripList_cons_ne {c : Char} (t : List Char) (hc : isPySpace c = false) :
    pyStripList (c :: t) ≠ [] := by
  unfold pyStripList
  rw [List.dropWhile_cons, if_neg (by simp [hc])]
  intro h
  have h2 : (c :: t).reverse.dropWhile isPySpace = [] := by
    have := congrArg List.reverse h
    simpa using this
  have h3 := List.dropWhile_eq_nil_iff.1 h2 c (by simp)
  rw [hc] at h3
  exact Bool.false_ne_true h3

lemma stripList_exists_of_ne {cs : List Char} (h : pyStripList cs ≠ []) :
    ∃ c t, pyStripList cs = c :: t ∧ isPySpace c = false := by
  cases hc : pyStripList cs with
  | nil => exact absurd hc h
  | cons c t => exact ⟨c, t, rfl, stripList_head hc⟩

lemma strip_list_ne (s : String) (h : pyStrip s ≠ "") : pyStripList s.data ≠ [] := by
  intro h0
  apply h
  unfold pyStrip
  rw [h0]

lemma takeSentence_head (c : Char) (t : List Char) :
    ∃ p, (takeSentence (c :: t)).1 = c :: p := by
  simp only [takeSentence]
  split
  · exact ⟨[], rfl⟩
  · exact ⟨(takeSentence t).1, rfl⟩

lemma splitSentencesF_head (f : Nat) (c : Char) (t : List Char) :
    ∃ p r, splitSentencesF f (c :: t) = (c :: p) :: r := by
  cases f with
  | zero => exact ⟨t, [], rfl⟩
  | succ f =>
    obtain ⟨p, hp⟩ := takeSentence_head c t
    rcases hts : takeSentence (c :: t) with ⟨q, o⟩
    have hq : q = c :: p := by rw [hts] at hp; exact hp
    subst hq
    cases o with
    | none => exact ⟨p, [], by simp only [splitSentencesF, hts]⟩
    | some rest => exact ⟨p, splitSentencesF f rest, by simp only [splitSentencesF, hts]⟩

lemma joinSpace_head (c : Char) (p : List Char) (rest : List (List Char)) :
    ∃ t2, joinSpace ((c :: p) :: rest) = c :: t2 := by
  cases rest with
  | nil => exact ⟨p, rfl⟩
  | cons q rs => exact ⟨p ++ ' ' :: joinSpace (q :: rs), rfl⟩

lemma fallbackSummary_ne (text : String) (h : pyStrip text ≠ "") :
    (fallbackSummary text).getD "" ≠ "" := by
  unfold fallbackSummary
  by_cases h0 : (summaryReg text).getD "" = ""
  · rw [if_pos h0]
    obtain ⟨c, t, hct, hc⟩ := stripList_exists_of_ne (strip_list_ne text h)
    rw [hct]
    unfold splitSentences
    obtain ⟨p, r, hsp⟩ := splitSentencesF_head ((c :: t).length + 1) c t
    rw [hsp]
    rw [if_neg (by simp)]
    rw [List.take_succ_cons]
    obtain ⟨t2, hj⟩ := joinSpace_head c p (r.take 1)
    rw [hj]
    simp only [Option.getD_some]
    exact mk_ne_empty (stripList_cons_ne t2 hc)
  · rw [if_neg h0]
    exact h0

lemma sentSearch_word : ∀ (cs : List Char) (g : String), sentSearch cs = some g →
    ∃ d t, g.data = d :: t ∧ isWordChar d = true := by
  intro cs
  induction cs with
  | nil => intro g h; simp [sentSearch] at h
  | cons c rest ih =>
    intro g h
    simp only [sentSearch] at h
    split at h
    · split at h
      · exact ih g h
      · split at h
        · split at h
          · rename_i d ds hdrop hw
            simp only [Option.some.injEq] at h
            subst h
            exact ⟨d, ds.takeWhile isWordChar, rfl, hw⟩
          · exact ih g h
        · exact ih g h
    · exact ih g h

lemma wordChar_not_space {d : Char} (h : isWordChar d = true) : isPySpace d = false := by
  by_cases hs : isPySpace d = true
  · exfalso
    unfold isPySpace at hs
    simp only [Bool.or_eq_true, decide_eq_true_eq] at hs
    rcases hs with ((((h1 | h1) | h1) | h1) | h1) | h1 <;> subst h1 <;>
      exact absurd h (by decide)
  · exact Bool.eq_false_iff.mpr hs

lemma capitalize_ne {s : String} {c : Char} {t : List Char} (h : s.data = c :: t) :
    pyCapitalize s ≠ "" := by
  unfold pyCapitalize
  rw [h]
  exact mk_ne_empty (by simp)

lemma cap_strip_word_ne {g : String} {d : Char} {t : List Char}
    (hd : g.data = d :: t) (hw : isWordChar d = true) :
    pyCapitalize (pyStrip g) ≠ "" := by
  have h1 : pyStripList g.data ≠ [] := by
    rw [hd]
    exact stripList_cons_ne t (wordChar_not_space hw)
  obtain ⟨c2, t2, h2, _⟩ := stripList_exists_of_ne h1
  exact capitalize_ne (show (pyStrip g).data = c2 :: t2 from h2)

lemma keywordSentiment_mem (text : String) : keywordSentiment text ∈ sentimentValues := by
  unfold keywordSentiment
  split_ifs <;> simp [sentimentValues]

lemma fallbackSentiment_eq (text : String) : fallbackSentiment text = sentimentOf text := by
  unfold fallbackSentiment sentimentOf sentimentReg
  cases hs : sentSearch text.data with
  | none => simp
  | some g =>
    obtain ⟨d, t, hd, hw⟩ := sentSearch_word text.data g hs
    have hne := cap_strip_word_ne hd hw
    simp only [Option.map_some', Option.getD_some]
    rw [if_neg hne]

lemma normalizeStr_mem (s : String) : normalizeStr s ∈ sentimentValues := by
  unfold normalizeStr
  split_ifs <;> simp [sentimentValues]

lemma normalize_ok_mem : ∀ (v : JValue) (r : String),
    normalize_sentiment v = .ok r → r ∈ sentimentValues := by
  intro v r h
  unfold normalize_sentiment at h
  split at h
  · cases v with
    | str s0 =>
      have hr : normalizeStr s0 = r := by simpa using h
      exact hr ▸ normalizeStr_mem s0
    | null => exact absurd h (by simp)
    | bool b => exact absurd h (by simp)
    | num i m e => exact absurd h (by simp)
    | nanV => exact absurd h (by simp)
    | infV n => exact absurd h (by simp)
    | arr l => exact absurd h (by simp)
    | obj l => exact absurd h (by simp)
  · have hr : "Neutral" = r := by simpa using h
    rw [← hr]
    simp [sentimentValues]

lemma normalize_of_mem (r : String) (h : r ∈ sentimentValues) :
    normalize_sentiment (.str r) = .ok r := by
  simp only [sentimentValues, List.mem_cons, List.not_mem_nil, or_false] at h
  rcases h with rfl | rfl | rfl <;> rfl

lemma normalize_safe (v : JValue) (h : isStrOrFalsy v = true) :
    ∃ r, normalize_sentiment v = .ok r := by
  cases v with
  | str s =>
    unfold normalize_sentiment
    split
    · exact ⟨normalizeStr s, rfl⟩
    · exact ⟨"Neutral", rfl⟩
  | null => exact ⟨"Neutral", rfl⟩
  | bool b =>
    cases b with
    | false => exact ⟨"Neutral", rfl⟩
    | true => simp [isStrOrFalsy, truthy] at h
  | num i m e =>
    have hm : m = 0 := by simpa [isStrOrFalsy, truthy] using h
    exact ⟨"Neutral", by simp [normalize_sentiment, truthy, hm]⟩
  | nanV => simp [isStrOrFalsy, truthy] at h
  | infV n => simp [isStrOrFalsy, truthy] at h
  | arr l =>
    have hl : l = [] := by simpa [isStrOrFalsy, truthy] using h
    subst hl
    exact ⟨"Neutral", rfl⟩
  | obj l =>
    have hl : l = [] := by simpa [isStrOrFalsy, truthy] using h
    subst hl
    exact ⟨"Neutral", rfl⟩

/-- Inversion of a successful post-processing run: the chosen summary value
was a string, the result summary is its stripped text, and the result
sentiment came out of the normaliser. -/
lemma postProcess_ok_inv (c : String) (r : String × String) (h : postProcess c = .ok r) :
    ∃ s, summaryChosen c = .str s ∧ r = (pyStrip s, r.2) ∧
      normalize_sentiment (sentRaw c) = .ok r.2 := by
  unfold postProcess at h
  cases hn : normalize_sentiment (sentRaw c) with
  | error e => rw [hn] at h; simp at h
  | ok v =>
    rw [hn] at h
    cases hv : summaryChosen c with
    | str s =>
      rw [hv] at h
      have hr : (pyStrip s, v) = r := by simpa using h
      refine ⟨s, rfl, ?_, ?_⟩
      · rw [← hr]
      · rw [← hr]
    | null => rw [hv] at h; simp at h
    | bool b => rw [hv] at h; simp at h
    | num i m e => rw [hv] at h; simp at h
    | nanV => rw [hv] at h; simp at h
    | infV n => rw [hv] at h; simp at h
    | arr l => rw [hv] at h; simp at h
    | obj l => rw [hv] at h; simp at h

/-! ## The claims -/

/-- C1, counterexample: the reply text 5 is successfully obtained and is
valid JSON, yet the Gateway returns an AnalysisError, not an AnalysisResult:
the parsed value 5 becomes the summary, summary.strip() raises
AttributeError, and the catch-all converts it to the error dictionary. So a
parse-shaped failure is surfaced to the caller. -/
theorem c1_counterexample :
    postProcess "5" = .error "'int' object has no attribute 'strip'" := rfl

/-- C1 (amended): for every reply text whose sentiment and summary slots (as
the code selects them) are strings or falsy — in particular whenever
extraction fails and the Fallback Parser supplies the dictionary — the
Gateway returns an AnalysisResult and no parse failure is surfaced; only a
truthy non-string value in one of the two slots is converted to an
AnalysisError. -/
theorem c1_parse_failures_contained_amended (c : String)
    (h1 : isStrOrFalsy (sentRaw c) = true) (h2 : isStrOrFalsy (summaryRaw c) = true) :
    isOkResult (postProcess c) = true := by
  obtain ⟨v, hv⟩ := normalize_safe (sentRaw c) h1
  unfold postProcess
  rw [hv]
  unfold summaryChosen
  by_cases hb : truthy (summaryRaw c) = true
  · rw [if_pos hb]
    cases hsv : summaryRaw c with
    | str s => rfl
    | null => rw [hsv] at hb; simp [truthy] at hb
    | bool b => rw [hsv] at h2 hb; simp_all [isStrOrFalsy, truthy]
    | num i m e => rw [hsv] at h2 hb; simp_all [isStrOrFalsy, truthy]
    | nanV => rw [hsv] at h2; simp [isStrOrFalsy, truthy] at h2
    | infV n => rw [hsv] at h2; simp [isStrOrFalsy, truthy] at h2
    | arr l => rw [hsv] at h2 hb; simp_all [isStrOrFalsy, truthy]
    | obj l => rw [hsv] at h2 hb; simp_all [isStrOrFalsy, truthy]
  · rw [if_neg hb]
    rfl

theorem c1_witness :
    (isStrOrFalsy (sentRaw "Reply with no json") = true ∧
      isStrOrFalsy (summaryRaw "Reply with no json") = true) ∧
    isOkResult (postProcess "Reply with no json") = true :=
  ⟨⟨rfl, rfl⟩, c1_parse_failures_contained_amended "Reply with no json" rfl rfl⟩

/-- C2, counterexample: on the reply 5 the extractor returns the Python int
5, which is neither a mapping nor null, refuting the claimed shape. -/
theorem c2_counterexample :
    extract_json_from_text "5" = JValue.num true 5 0 ∧
    isNullOrObj (JValue.num true 5 0) = false := ⟨rfl, rfl⟩

/-- C2 (amended): the extractor is total and returns either null or whatever
JSON value (of any shape, not only a mapping) one of its two parsing stages
produced; every parse failure is treated as no result (null). -/
theorem c2_extractor_shape_amended (s : String) :
    extract_json_from_text s = JValue.null ∨
    json_loads (pyStrip s) = some (extract_json_from_text s) ∨
    ∃ sub, braceSpan s = some sub ∧ json_loads sub = some (extract_json_from_text s) := by
  cases h1 : json_loads (pyStrip s) with
  | some v =>
    have he : extract_json_from_text s = v := by
      simp only [extract_json_from_text, h1]
    rw [he]
    exact Or.inr (Or.inl rfl)
  | none =>
    cases h2 : braceSpan s with
    | none =>
      left
      simp only [extract_json_from_text, h1, h2]
    | some sub =>
      cases h3 : json_loads sub with
      | none =>
        left
        simp only [extract_json_from_text, h1, h2, h3]
      | some v =>
        have he : extract_json_from_text s = v := by
          simp only [extract_json_from_text, h1, h2, h3]
        rw [he]
        exact Or.inr (Or.inr ⟨sub, rfl, h3⟩)

/-- C3: a reply whose trimmed text parses as a JSON object carrying the
summary and sentiment keys is returned by the extractor unchanged — the
direct-parse stage wins. -/
theorem c3_strict_json_unchanged (s : String) (v : JValue)
    (h : json_loads (pyStrip s) = some v) (hobj : v.isObj = true)
    (h1 : hasKey v "summary" = true) (h2 : hasKey v "sentiment" = true) :
    extract_json_from_text s = v := by
  unfold extract_json_from_text
  rw [h]

theorem c3_witness :
    (json_loads (pyStrip "  \x7b\"summary\": \"All good.\", \"sentiment\": \"Positive\"\x7d  ")
        = some (JValue.obj [("summary", JValue.str "All good."),
                            ("sentiment", JValue.str "Positive")]) ∧
      (JValue.obj [("summary", JValue.str "All good."),
                   ("sentiment", JValue.str "Positive")]).isObj = true ∧
      hasKey (JValue.obj [("summary", JValue.str "All good."),
                          ("sentiment", JValue.str "Positive")]) "summary" = true ∧
      hasKey (JValue.obj [("summary", JValue.str "All good."),
                          ("sentiment", JValue.str "Positive")]) "sentiment" = true) ∧
    extract_json_from_text "  \x7b\"summary\": \"All good.\", \"sentiment\": \"Positive\"\x7d  "
      = JValue.obj [("summary", JValue.str "All good."), ("sentiment", JValue.str "Positive")] :=
  ⟨⟨rfl, rfl, rfl, rfl⟩,
    c3_strict_json_unchanged _ _ rfl rfl rfl rfl⟩

/-- C4, counterexample: this reply contains the JSON object at its head and
only two extra characters of prose, yet the extractor returns null: the
greedy span runs from the first opening brace to the LAST closing brace,
which spans the prose too and fails to parse, so the embedded object is not
recovered. -/
theorem c4_counterexample :
    json_loads "\x7b\"a\": 1\x7d" = some (JValue.obj [("a", JValue.num true 1 0)]) ∧
    "\x7b\"a\": 1\x7d" ++ " \x7d" = "\x7b\"a\": 1\x7d \x7d" ∧
    json_loads (pyStrip "\x7b\"a\": 1\x7d \x7d") = none ∧
    braceSpan "\x7b\"a\": 1\x7d \x7d" = some "\x7b\"a\": 1\x7d \x7d" ∧
    extract_json_from_text "\x7b\"a\": 1\x7d \x7d" = JValue.null :=
  ⟨rfl, rfl, rfl, rfl, rfl⟩

/-- C4 (amended): when the reply is not itself valid JSON but the greedy
brace span — first opening brace to last closing brace — parses as a JSON
object, the extractor recovers exactly that object; when other braces sit in
the surrounding prose the span may fail to parse and the embedded object is
then not recovered. -/
theorem c4_brace_span_recovery_amended (s sub : String) (v : JValue)
    (hd : json_loads (pyStrip s) = none) (hb : braceSpan s = some sub)
    (hj : json_loads sub = some v) (hobj : v.isObj = true) :
    extract_json_from_text s = v := by
  simp only [extract_json_from_text, hd, hb, hj]

theorem c4_witness :
    (json_loads (pyStrip "Answer: \x7b\"summary\": \"Ok.\", \"sentiment\": \"Positive\"\x7d Thanks") = none ∧
      braceSpan "Answer: \x7b\"summary\": \"Ok.\", \"sentiment\": \"Positive\"\x7d Thanks"
        = some "\x7b\"summary\": \"Ok.\", \"sentiment\": \"Positive\"\x7d" ∧
      json_loads "\x7b\"summary\": \"Ok.\", \"sentiment\": \"Positive\"\x7d"
        = some (JValue.obj [("summary", JValue.str "Ok."), ("sentiment", JValue.str "Positive")]) ∧
      (JValue.obj [("summary", JValue.str "Ok."), ("sentiment", JValue.str "Positive")]).isObj = true) ∧
    extract_json_from_text "Answer: \x7b\"summary\": \"Ok.\", \"sentiment\": \"Positive\"\x7d Thanks"
      = JValue.obj [("summary", JValue.str "Ok."), ("sentiment", JValue.str "Positive")] :=
  ⟨⟨rfl, rfl, rfl, rfl⟩, c4_brace_span_recovery_amended _ _ _ rfl rfl rfl rfl⟩

/-- C5, counterexample: the reply contains no valid JSON, the extractor does
return null, but the Fallback Parser returns the sentiment Confused — the
capitalized word after the Sentiment label — which is not one of the three
claimed values. (The claim also fails on the empty reply, where the fallback
summary is empty.) -/
theorem c5_counterexample :
    extract_json_from_text "Sentiment: confused" = JValue.null ∧
    (fallback_parse "Sentiment: confused").2 = "Confused" ∧
    ¬ "Confused" ∈ sentimentValues :=
  ⟨rfl, rfl, by decide⟩

/-- C5 (amended): when neither the trimmed reply nor its brace span parses as
JSON, the extractor returns null; the fallback summary is non-empty whenever
the trimmed reply is non-empty (it is empty on a whitespace-only reply); the
fallback sentiment is the capitalized stripped word after a Sentiment label
when one matches, and otherwise the keyword-scan verdict, which is always one
of exactly the three values. -/
theorem c5_no_json_fallback_amended (s : String)
    (h1 : json_loads (pyStrip s) = none) (h2 : noSpanJson s = true) :
    extract_json_from_text s = JValue.null ∧
    (pyStrip s ≠ "" → (fallback_parse s).1.getD "" ≠ "") ∧
    (fallback_parse s).2 = sentimentOf s ∧
    keywordSentiment s ∈ sentimentValues := by
  refine ⟨?_, ?_, fallbackSentiment_eq s, keywordSentiment_mem s⟩
  · cases hb : braceSpan s with
    | none => simp only [extract_json_from_text, h1, hb]
    | some sub =>
      have hs : json_loads sub = none := by
        unfold noSpanJson at h2
        rw [hb] at h2
        exact Option.isNone_iff_eq_none.1 h2
      simp only [extract_json_from_text, h1, hb, hs]
  · intro hne
    exact fallbackSummary_ne s hne

theorem c5_witness :
    (json_loads (pyStrip "The agent was rude. Please call back. Thanks.") = none ∧
      noSpanJson "The agent was rude. Please call back. Thanks." = true) ∧
    (extract_json_from_text "The agent was rude. Please call back. Thanks." = JValue.null ∧
      (pyStrip "The agent was rude. Please call back. Thanks." ≠ "" →
        (fallback_parse "The agent was rude. Please call back. Thanks.").1.getD "" ≠ "") ∧
      (fallback_parse "The agent was rude. Please call back. Thanks.").2
        = sentimentOf "The agent was rude. Please call back. Thanks." ∧
      keywordSentiment "The agent was rude. Please call back. Thanks." ∈ sentimentValues) :=
  ⟨⟨rfl, rfl⟩, c5_no_json_fallback_amended "The agent was rude. Please call back. Thanks." rfl rfl⟩

/-- C6: the Sentiment Normalizer of the gateway (lines 130-141) is idempotent
on the tokens it produces, its range is exactly the three values Positive,
Neutral, Negative, and None, the empty string, the literal neutral and every
token whose folded form is in neither synonym list all map to Neutral. -/
theorem c6_normalizer_idempotent_range :
    (∀ x r, normalize_sentiment x = .ok r → normalize_sentiment (.str r) = .ok r) ∧
    (∀ x r, normalize_sentiment x = .ok r → r ∈ sentimentValues) ∧
    (∀ r, r ∈ sentimentValues → ∃ x, normalize_sentiment x = .ok r) ∧
    normalize_sentiment .null = .ok "Neutral" ∧
    normalize_sentiment (.str "") = .ok "Neutral" ∧
    normalize_sentiment (.str "neutral") = .ok "Neutral" ∧
    (∀ s, pyLower (pyCapitalize (pyStrip s)) ∉ negTokens →
      pyLower (pyCapitalize (pyStrip s)) ∉ posTokens →
      normalize_sentiment (.str s) = .ok "Neutral") := by
  refine ⟨?_, normalize_ok_mem, ?_, rfl, rfl, rfl, ?_⟩
  · intro x r h
    exact normalize_of_mem r (normalize_ok_mem x r h)
  · intro r h
    simp only [sentimentValues, List.mem_cons, List.not_mem_nil, or_false] at h
    rcases h with rfl | rfl | rfl
    · exact ⟨.str "positive", rfl⟩
    · exact ⟨.null, rfl⟩
    · exact ⟨.str "negative", rfl⟩
  · intro s hn hp
    unfold normalize_sentiment
    by_cases ht : truthy (.str s) = true
    · rw [if_pos ht]
      show Except.ok (normalizeStr s) = Except.ok "Neutral"
      unfold normalizeStr
      rw [if_neg hn, if_neg hp]
    · rw [if_neg ht]

/-- C7: whatever the reply text was, a successful post-processing run yields
a sentiment that is one of exactly the three values — the normaliser is the
only producer of the sentiment field. -/
theorem c7_sentiment_invariant (c : String) (r : String × String)
    (h : postProcess c = .ok r) : r.2 ∈ sentimentValues := by
  obtain ⟨s, _, _, hn⟩ := postProcess_ok_inv c r h
  exact normalize_ok_mem _ _ hn

theorem c7_witness :
    ("All good.", "Positive").2 ∈ sentimentValues :=
  c7_sentiment_invariant "\x7b\"summary\": \"All good.\", \"sentiment\": \"Positive\"\x7d"
    ("All good.", "Positive") rfl

/-- C8, counterexample: a reply whose summary field is whitespace-only but
non-empty text is truthy, so the placeholder is not substituted, and
summary.strip() leaves the empty string: the produced AnalysisResult has an
empty summary. -/
theorem c8_counterexample :
    postProcess "\x7b\"summary\": \"   \", \"sentiment\": \"ok\"\x7d" = .ok ("", "Neutral") := rfl

/-- C8 (amended): the summary of any AnalysisResult is the stripped text of
the chosen parse value, with the fixed placeholder No summary produced.
exactly when that value is falsy; it is non-empty except when the chosen
summary value is a non-empty but whitespace-only string, in which case the
summary is empty. -/
theorem c8_summary_invariant_amended (c : String) (r : String × String)
    (h : postProcess c = .ok r) :
    (truthy (summaryRaw c) = false → r.1 = "No summary produced.") ∧
    (∀ s, summaryRaw c = .str s → s ≠ "" → r.1 = pyStrip s) ∧
    (r.1 ≠ "" ∨ ∃ s, summaryRaw c = .str s ∧ s ≠ "" ∧ pyStrip s = "") := by
  obtain ⟨s, hs, hr, _⟩ := postProcess_ok_inv c r h
  have hr1 : r.1 = pyStrip s := by rw [hr]
  unfold summaryChosen at hs
  by_cases hb : truthy (summaryRaw c) = true
  · rw [if_pos hb] at hs
    have hsne : s ≠ "" := by
      rw [hs] at hb
      simpa [truthy] using hb
    refine ⟨?_, ?_, ?_⟩
    · intro hf
      rw [hf] at hb
      exact Bool.noConfusion hb
    · intro s' hs' _
      rw [hs] at hs'
      have he : s = s' := by simpa using hs'
      rw [hr1, he]
    · by_cases hse : pyStrip s = ""
      · exact Or.inr ⟨s, hs, hsne, hse⟩
      · exact Or.inl (by rw [hr1]; exact hse)
  · rw [if_neg hb] at hs
    have hsp : s = "No summary produced." := by simpa using hs.symm
    refine ⟨?_, ?_, ?_⟩
    · intro _
      rw [hr1, hsp]
      rfl
    · intro s' hs' hne
      exfalso
      apply hb
      rw [hs']
      simpa [truthy] using hne
    · left
      rw [hr1, hsp]
      decide

theorem c8_witness :
    postProcess "\x7b\"summary\": \"  Hi.  \", \"sentiment\": \"pos\"\x7d" = .ok ("Hi.", "Positive") ∧
    ("Hi.", "Positive").1 = pyStrip "  Hi.  " :=
  ⟨rfl,
    (c8_summary_invariant_amended "\x7b\"summary\": \"  Hi.  \", \"sentiment\": \"pos\"\x7d"
      ("Hi.", "Positive") rfl).2.1 "  Hi.  " rfl (by decide)⟩

/-- C9: when the transcript passed validation and the Gateway comes back with
the error dictionary, the analyze route answers 500 with a JSON body carrying
the error message, and the log is left exactly as it was — no record is
appended. -/
theorem c9_gateway_failure_500_no_log (isJson : Bool) (t e : String)
    (log : List (List String)) (h : pyStrip t ≠ "") :
    analyzeRoute isJson t (.err e) log = ((500, .errJson e), log) := by
  unfold analyzeRoute
  rw [if_neg h]

theorem c9_witness :
    pyStrip "Customer call transcript" ≠ "" ∧
    analyzeRoute true "Customer call transcript" (.err "network down") [["Transcript", "Summary", "Sentiment"]]
      = ((500, .errJson "network down"), [["Transcript", "Summary", "Sentiment"]]) :=
  ⟨by decide,
    c9_gateway_failure_500_no_log true "Customer call transcript" "network down"
      [["Transcript", "Summary", "Sentiment"]] (by decide)⟩

/-- C10: the post-call processing is a pure function of the reply text — two
runs on the same reply produce the same (summary, sentiment) outcome, with no
dependence on ambient state. -/
theorem c10_postprocess_deterministic (r1 r2 : String) (h : r1 = r2) :
    postProcess r1 = postProcess r2 := by
  rw [h]

theorem c10_witness :
    postProcess "Summary: fine.\nSentiment: happy" = postProcess "Summary: fine.\nSentiment: happy" :=
  c10_postprocess_deterministic "Summary: fine.\nSentiment: happy" "Summary: fine.\nSentiment: happy" rfl
